import Mathlib

/-!
Verification of the TCP data-share framing engine and read-worker control
plane.  The stateful framer `ProtocolBuffer.process_new_buffer` is embedded
from the source; the pluggable protocol capability is a record of functions,
with a concrete instance following the 6-byte example protocol (3 big-endian
length bytes, then 3 big-endian command bytes).  Bytes are modelled as `Nat`
values; where a fact needs them to fit in an octet, a `< 256` hypothesis is
carried explicitly.  A Rust panic is modelled as an `Except.error` result.
-/

/-- The distinct panic sites of the framer: the explicit panic on a header
parse error, `Vec.split_off` called past the end of the vector, and usize
subtraction underflow. -/
inductive FramerPanic where
  | parseHeaderError
  | splitOffOutOfBounds
  | subUnderflow
deriving DecidableEq, Repr

/-- Modelled from the spec: the protocol capability record (the `Protocol`
trait lives in a module absent from the sources; only its call sites are
present).  Header blocks and wire messages are byte lists. -/
structure Protocol (Cmd : Type) (Busy : Type) where
  message_slice_to_header_array : List Nat → Option (List Nat × List Nat)
  parse_header : List Nat → Except Unit (Cmd × Nat)
  idle : Busy
  construct_message : Cmd → List Nat → Option (List Nat)
  message_is_answered_via_immediate_route :
      Cmd → List Nat → Busy → Option (Cmd × List Nat)

/-- The framer state, embedded field by field from `struct ProtocolBuffer`. -/
structure ProtocolBuffer (Cmd : Type) (Busy : Type) where
  current_command : Option Cmd
  current_target : Nat
  current_message : List Nat
  incoming_buffer_vec : List Nat
  busy_state : Busy
deriving DecidableEq

/-- `ProtocolBuffer::new`. -/
def ProtocolBuffer.new (P : Protocol Cmd Busy) : ProtocolBuffer Cmd Busy :=
  { current_command := none
    current_target := 0
    current_message := []
    incoming_buffer_vec := []
    busy_state := P.idle }

/-- `ProtocolBuffer::get_busy_state`. -/
def ProtocolBuffer.get_busy_state (s : ProtocolBuffer Cmd Busy) : Busy :=
  s.busy_state

/-- `ProtocolBuffer::update_busy_state`. -/
def ProtocolBuffer.update_busy_state (s : ProtocolBuffer Cmd Busy) (b : Busy) :
    ProtocolBuffer Cmd Busy :=
  { s with busy_state := b }

/-- The branch of `process_new_buffer` taken when `current_command` is
`Some`; the recursive call `self.process_new_buffer(&[])` made right after a
header is parsed lands here, so it is split out as a helper.  `split_off(0)`
on `current_message` takes the whole vector; `split_off` on
`incoming_buffer_vec` at `current_target - completed_message.len()` panics
when the subtraction underflows or the index passes the end. -/
def processPending (s : ProtocolBuffer Cmd Busy) (command : Cmd) :
    Except FramerPanic (ProtocolBuffer Cmd Busy × Option (Cmd × List Nat)) :=
  if s.incoming_buffer_vec.length + s.current_message.length < s.current_target then
    .ok ({ s with
            current_message := s.current_message ++ s.incoming_buffer_vec,
            incoming_buffer_vec := [] }, none)
  else if s.current_target < s.current_message.length then
    .error .subUnderflow
  else
    let idx := s.current_target - s.current_message.length
    .ok ({ s with
            current_command := none
            current_target := 0
            current_message := []
            incoming_buffer_vec := s.incoming_buffer_vec.drop idx },
         some (command, s.current_message ++ s.incoming_buffer_vec.take idx))

/-- `ProtocolBuffer::process_new_buffer`, embedded from the source: append
the incoming slice to the staging vector; with a pending command, assemble
the payload (helper above); otherwise try to extract a header, panic if it
fails to parse, set the pending command, move the declared number of payload
bytes out of staging (`split_off(length)` panics when staging holds fewer
than `length` bytes after the header), and recurse on the empty slice. -/
def process_new_buffer (P : Protocol Cmd Busy) (s : ProtocolBuffer Cmd Busy)
    (incoming_buffer : List Nat) :
    Except FramerPanic (ProtocolBuffer Cmd Busy × Option (Cmd × List Nat)) :=
  let s := { s with incoming_buffer_vec := s.incoming_buffer_vec ++ incoming_buffer }
  match s.current_command with
  | some command => processPending s command
  | none =>
    match P.message_slice_to_header_array s.incoming_buffer_vec with
    | some (header, message) =>
      match P.parse_header header with
      | .error _ => .error .parseHeaderError
      | .ok (command, len) =>
        if len ≤ message.length then
          processPending
            { s with
                current_command := some command
                current_target := len
                current_message := message.take len
                incoming_buffer_vec := message.drop len }
            command
        else .error .splitOffOutOfBounds
    | none => .ok (s, none)

/-- The drain phase of the worker's inner loop: keep invoking the framer on
the empty slice while it yields messages.  `fuel` bounds the number of
calls; the `Bool` records whether a `none` result was reached, that is
whether the Rust `while let` loop exited. -/
def drainCalls (P : Protocol Cmd Busy) :
    Nat → ProtocolBuffer Cmd Busy →
    Except FramerPanic (ProtocolBuffer Cmd Busy × List (Cmd × List Nat) × Bool)
  | 0, s => .ok (s, [], false)
  | fuel + 1, s =>
    match process_new_buffer P s [] with
    | .error e => .error e
    | .ok (s1, none) => .ok (s1, [], true)
    | .ok (s1, some m) =>
      match drainCalls P fuel s1 with
      | .error e => .error e
      | .ok (s2, ms, fin) => .ok (s2, m :: ms, fin)

/-- One pass of the worker's inner `while let` loop: feed a freshly read
chunk, then drain with empty slices. -/
def feedChunk (P : Protocol Cmd Busy) (fuel : Nat) (s : ProtocolBuffer Cmd Busy)
    (chunk : List Nat) :
    Except FramerPanic (ProtocolBuffer Cmd Busy × List (Cmd × List Nat) × Bool) :=
  match process_new_buffer P s chunk with
  | .error e => .error e
  | .ok (s1, none) => .ok (s1, [], true)
  | .ok (s1, some m) =>
    match drainCalls P fuel s1 with
    | .error e => .error e
    | .ok (s2, ms, fin) => .ok (s2, m :: ms, fin)

/-- Feed a sequence of read chunks, draining after each, collecting every
emitted message in order.  The `Bool` is true when every drain loop exited
normally. -/
def feedStream (P : Protocol Cmd Busy) (fuel : Nat) (s : ProtocolBuffer Cmd Busy) :
    List (List Nat) →
    Except FramerPanic (ProtocolBuffer Cmd Busy × List (Cmd × List Nat) × Bool)
  | [] => .ok (s, [], true)
  | chunk :: rest =>
    match feedChunk P fuel s chunk with
    | .error e => .error e
    | .ok (s1, ms, fin1) =>
      match feedStream P fuel s1 rest with
      | .error e => .error e
      | .ok (s2, ms2, fin2) => .ok (s2, ms ++ ms2, fin1 && fin2)

/-- Run a bare sequence of `process_new_buffer` calls (each call's argument
given explicitly, empty drain slices included), collecting the emitted
messages in order. -/
def runCalls (P : Protocol Cmd Busy) (s : ProtocolBuffer Cmd Busy) :
    List (List Nat) →
    Except FramerPanic (ProtocolBuffer Cmd Busy × List (Cmd × List Nat))
  | [] => .ok (s, [])
  | chunk :: rest =>
    match process_new_buffer P s chunk with
    | .error e => .error e
    | .ok (s1, r) =>
      match runCalls P s1 rest with
      | .error e => .error e
      | .ok (s2, ms) => .ok (s2, r.toList ++ ms)

/-- Big-endian 3-byte encoding of a number, matching the header arithmetic
of the example protocol in the source. -/
def enc3 (n : Nat) : List Nat :=
  [n / 65536 % 256, n / 256 % 256, n % 256]

/-- Big-endian 3-byte decoding, following the loop of the source's
`update_header` (base-256 positional sum). -/
def dec3 (bs : List Nat) : Nat :=
  bs.getD 0 0 * 65536 + bs.getD 1 0 * 256 + bs.getD 2 0

/-- The busy states of the example protocol in the source: waiting, or
working on a payload that answers status queries. -/
inductive BusyStatesExample where
  | waitingForRequest
  | working (message : List Nat)
deriving DecidableEq, Repr

/-- Modelled from the spec: the concrete example protocol (absent
`protocol` module) with a 6-byte header of 3 big-endian length bytes then 3
big-endian command bytes, per the spec's scenarios and the header
arithmetic of the source's `update_header`.  `construct_message` is the
inverse of header parsing and fails when a field overflows 3 bytes;
command 12 under a working busy state is answered via the immediate
route. -/
def ProtocolExample : Protocol Nat BusyStatesExample where
  message_slice_to_header_array bs :=
    if 6 ≤ bs.length then some (bs.take 6, bs.drop 6) else none
  parse_header h := .ok (dec3 (h.drop 3), dec3 (h.take 3))
  idle := .waitingForRequest
  construct_message c p :=
    if c < 16777216 ∧ p.length < 16777216 then
      some (enc3 p.length ++ enc3 c ++ p)
    else none
  message_is_answered_via_immediate_route c _p b :=
    if c = 12 then
      match b with
      | .working m => some (12, m)
      | .waitingForRequest => none
    else none

/-- A capability whose header parse always fails, exercising the panic
branch of the framer. -/
def parseFailProtocol : Protocol Nat BusyStatesExample where
  message_slice_to_header_array bs := some (bs, [])
  parse_header _ := .error ()
  idle := .waitingForRequest
  construct_message _ _ := none
  message_is_answered_via_immediate_route _ _ _ := none

/-- The wire bytes of one emitted message of the example protocol: its
header reconstructed from command and payload length, then the payload. -/
def wireOf (m : Nat × List Nat) : List Nat :=
  enc3 m.2.length ++ enc3 m.1 ++ m.2

/-- The wire bytes of a message sequence, concatenated in order. -/
def wireAll (ms : List (Nat × List Nat)) : List Nat :=
  (ms.map wireOf).flatten

/-- The wire bytes of an optional emitted message: nothing for `none`. -/
def wireOpt (r : Option (Nat × List Nat)) : List Nat :=
  match r with
  | none => []
  | some m => wireOf m

/-- The control-plane channel queues visible to the worker at the start of
a service pass, together with the framer it drives and the responses it has
sent back on the busy-state-queried channel. -/
structure ControlState (Cmd : Type) (Busy : Type) where
  shutdown_queue : List Unit
  busy_state_query_queue : List Unit
  busy_state_update_queue : List Busy
  pb : ProtocolBuffer Cmd Busy
  query_responses : List Busy

/-- One control-plane service pass of the read worker, in source order: one
non-blocking receive on the shutdown channel (a pending value exits the
loop, yielding `none`); one non-blocking receive on the busy-state query
channel, answered with the framer's current busy state; then a loop fully
draining the busy-state update channel, applying each update in order. -/
def servicePass (cs : ControlState Cmd Busy) : Option (ControlState Cmd Busy) :=
  match cs.shutdown_queue with
  | _ :: _ => none
  | [] =>
    let qr :=
      match cs.busy_state_query_queue with
      | _ :: rest => (cs.query_responses ++ [cs.pb.get_busy_state], rest)
      | [] => (cs.query_responses, ([] : List Unit))
    let pb := cs.busy_state_update_queue.foldl ProtocolBuffer.update_busy_state cs.pb
    some { shutdown_queue := []
           busy_state_query_queue := qr.2
           busy_state_update_queue := []
           pb := pb
           query_responses := qr.1 }

/-- The worker's service-pass throttle over `n` loop iterations starting
from a given counter value, from the source: each iteration compares the
counter against `check_count`; on a hit the service pass runs and the
counter resets to zero, otherwise the counter is incremented and the pass
is skipped.  Entry `i` of the result tells whether iteration `i` ran a
service pass. -/
def serviceFlags (check_count : Nat) : Nat → Nat → List Bool
  | _, 0 => []
  | counter, n + 1 =>
    if counter = check_count then true :: serviceFlags check_count 0 n
    else false :: serviceFlags check_count (counter + 1) n

/-- An item posted by the worker on the outbound message channel, as
consumed by `get_message`: a framed message, or one of the read-thread
errors. -/
inductive Post (Cmd : Type) where
  | okMessage (command : Cmd) (message : List Nat)
  | writeError
  | immediateMessageConstructError (command : Cmd) (message : List Nat)
  | readError
deriving DecidableEq

/-- The worker's handling of one framed message, from the source: if the
capability routes it immediately, construct the reply and write it on the
worker's socket handle (a failed write posts `WriteError`; a failed
construction posts `ImmediateMessageConstructError`); otherwise post the
message itself.  Returns (bytes written on the socket, channel posts). -/
def dispatchMessage (P : Protocol Cmd Busy) (pb : ProtocolBuffer Cmd Busy)
    (command : Cmd) (message : List Nat) (writeOk : Bool) :
    List (List Nat) × List (Post Cmd) :=
  match P.message_is_answered_via_immediate_route command message pb.get_busy_state with
  | some (command2, message2) =>
    match P.construct_message command2 message2 with
    | some w => ([w], if writeOk then [] else [Post.writeError])
    | none => ([], [Post.immediateMessageConstructError command2 message2])
  | none => ([], [Post.okMessage command message])

/-- The messages that successive `get_message` calls return `Ok(Some _)`
for, out of a sequence of channel posts: exactly the `okMessage` items. -/
def deliveredMessages (posts : List (Post Cmd)) : List (Cmd × List Nat) :=
  posts.filterMap fun p =>
    match p with
    | Post.okMessage c m => some (c, m)
    | _ => none

/-- The worker's handling of a failed socket read, from the source:
`WouldBlock` is treated as no data and produces nothing; any other error is
posted as `ReadError` on the outbound channel, and the loop breaks only
when that send fails because the receiver was dropped.  Returns (channel
posts, whether the loop continues). -/
def handleReadError (Cmd : Type) (isWouldBlock receiverConnected : Bool) :
    List (Post Cmd) × Bool :=
  if isWouldBlock then ([], true)
  else if receiverConnected then ([Post.readError], true)
  else ([], false)

theorem dec3_enc3 (n : Nat) (h : n < 16777216) : dec3 (enc3 n) = n := by
  simp only [dec3, enc3, List.getD_cons_zero, List.getD_cons_succ]
  omega

theorem enc3_dec3 (b0 b1 b2 : Nat) (h0 : b0 < 256) (h1 : b1 < 256) (h2 : b2 < 256) :
    enc3 (dec3 [b0, b1, b2]) = [b0, b1, b2] := by
  simp only [dec3, enc3, List.getD_cons_zero, List.getD_cons_succ]
  refine List.cons_eq_cons.mpr ⟨?_, List.cons_eq_cons.mpr ⟨?_, List.cons_eq_cons.mpr ⟨?_, rfl⟩⟩⟩
  all_goals omega

theorem take6_header (a b : List Nat) (p : List Nat) (ha : a.length = 3) (hb : b.length = 3) :
    (a ++ b ++ p).take 6 = a ++ b := by
  rw [List.take_append_of_le_length (by simp [ha, hb]),
    List.take_of_length_le (by simp [ha, hb])]

theorem drop6_header (a b : List Nat) (p : List Nat) (ha : a.length = 3) (hb : b.length = 3) :
    (a ++ b ++ p).drop 6 = p := by
  rw [List.drop_append_of_le_length (by simp [ha, hb])]
  have h6 : (a ++ b).length = 6 := by simp [ha, hb]
  simp [List.drop_of_length_le, h6]

theorem enc3_length (n : Nat) : (enc3 n).length = 3 := by
  simp [enc3]

theorem slice_whole_message (c : Nat) (p : List Nat) :
    ProtocolExample.message_slice_to_header_array (enc3 p.length ++ enc3 c ++ p) =
      some (enc3 p.length ++ enc3 c, p) := by
  have hlen : 6 ≤ (enc3 p.length ++ enc3 c ++ p).length := by simp [enc3]
  simp only [ProtocolExample]
  rw [if_pos hlen, take6_header _ _ _ (enc3_length _) (enc3_length _),
    drop6_header _ _ _ (enc3_length _) (enc3_length _)]

theorem parse_whole_header (c : Nat) (p : List Nat)
    (hc : c < 16777216) (hp : p.length < 16777216) :
    ProtocolExample.parse_header (enc3 p.length ++ enc3 c) = .ok (c, p.length) := by
  have h1 : (enc3 p.length ++ enc3 c).drop 3 = enc3 c := by
    rw [List.drop_append_of_le_length (by simp [enc3_length])]
    simp [List.drop_of_length_le, enc3_length]
  have h2 : (enc3 p.length ++ enc3 c).take 3 = enc3 p.length := by
    rw [List.take_append_of_le_length (by simp [enc3_length]),
      List.take_of_length_le (by simp [enc3_length])]
  simp [ProtocolExample, h1, h2, dec3_enc3 _ hc, dec3_enc3 _ hp]

/-- Feeding one complete wire message of the example protocol into the
framer with empty staging and no pending header emits exactly that message
and returns the framer to the pristine state. -/
theorem process_whole_message (c : Nat) (p w : List Nat) (t : Nat) (b : BusyStatesExample)
    (hcw : ProtocolExample.construct_message c p = some w) :
    process_new_buffer ProtocolExample
        ⟨none, t, [], [], b⟩ w =
      .ok (⟨none, 0, [], [], b⟩, some (c, p)) := by
  simp only [ProtocolExample] at hcw
  by_cases hok : c < 16777216 ∧ p.length < 16777216
  · rw [if_pos hok] at hcw
    obtain ⟨hc, hp⟩ := hok
    obtain rfl : enc3 p.length ++ enc3 c ++ p = w := Option.some_injective _ hcw
    rw [process_new_buffer]
    simp only [List.nil_append, slice_whole_message, parse_whole_header c p hc hp,
      le_refl, if_true, List.take_length, List.drop_length]
    rw [processPending]
    simp
  · rw [if_neg hok] at hcw
    exact absurd hcw (by simp)

theorem dec3_lt (b0 b1 b2 : Nat) (h0 : b0 < 256) (h1 : b1 < 256) (h2 : b2 < 256) :
    dec3 [b0, b1, b2] < 16777216 := by
  simp only [dec3, List.getD_cons_zero, List.getD_cons_succ]
  omega

theorem parse_cons6 (b0 b1 b2 b3 b4 b5 : Nat) :
    ProtocolExample.parse_header [b0, b1, b2, b3, b4, b5]
      = .ok (dec3 [b3, b4, b5], dec3 [b0, b1, b2]) := rfl

/-- One `process_new_buffer` call of the example protocol, started from a
state with no pending header and empty assembled payload, returns a state of
the same shape whose bytes are still octets, and the wire bytes of the
emitted message (if any) followed by the new staging equal the old staging
followed by the new chunk. -/
theorem step_preserves_prefix (t : Nat) (b : BusyStatesExample) (inc chunk : List Nat)
    (s2 : ProtocolBuffer Nat BusyStatesExample) (r : Option (Nat × List Nat))
    (hvalid : ∀ x ∈ inc ++ chunk, x < 256)
    (hok : process_new_buffer ProtocolExample ⟨none, t, [], inc, b⟩ chunk = .ok (s2, r)) :
    s2.current_command = none ∧ s2.current_message = [] ∧
      wireOpt r ++ s2.incoming_buffer_vec = inc ++ chunk ∧
      (∀ x ∈ s2.incoming_buffer_vec, x < 256) ∧ s2.busy_state = b := by
  simp only [process_new_buffer] at hok
  revert hok hvalid
  generalize inc ++ chunk = st
  intro hvalid hok
  cases hsl : ProtocolExample.message_slice_to_header_array st with
  | none =>
    rw [hsl] at hok
    simp only [Except.ok.injEq, Prod.mk.injEq] at hok
    obtain ⟨rfl, rfl⟩ := hok
    exact ⟨rfl, rfl, by simp [wireOpt], hvalid, rfl⟩
  | some pair =>
    obtain ⟨header, message⟩ := pair
    rw [hsl] at hok
    simp only [ProtocolExample] at hsl
    by_cases h6 : 6 ≤ st.length
    · rw [if_pos h6] at hsl
      simp only [Option.some.injEq, Prod.mk.injEq] at hsl
      obtain ⟨rfl, rfl⟩ := hsl
      rcases st with _ | ⟨b0, _ | ⟨b1, _ | ⟨b2, _ | ⟨b3, _ | ⟨b4, _ | ⟨b5, rest⟩⟩⟩⟩⟩⟩ <;>
        simp only [List.length_nil, List.length_cons] at h6 <;> try omega
      have hb0 : b0 < 256 := hvalid b0 (by simp)
      have hb1 : b1 < 256 := hvalid b1 (by simp)
      have hb2 : b2 < 256 := hvalid b2 (by simp)
      have hb3 : b3 < 256 := hvalid b3 (by simp)
      have hb4 : b4 < 256 := hvalid b4 (by simp)
      have hb5 : b5 < 256 := hvalid b5 (by simp)
      rw [show List.take 6 (b0 :: b1 :: b2 :: b3 :: b4 :: b5 :: rest)
            = [b0, b1, b2, b3, b4, b5] from rfl,
        show List.drop 6 (b0 :: b1 :: b2 :: b3 :: b4 :: b5 :: rest) = rest from rfl] at hok
      simp only [parse_cons6] at hok
      set n := dec3 [b0, b1, b2] with hn
      set cmd := dec3 [b3, b4, b5] with hcmd
      by_cases hle : n ≤ rest.length
      · rw [if_pos hle] at hok
        rw [processPending] at hok
        simp only [List.length_take, List.length_drop, Nat.min_eq_left hle] at hok
        rw [if_neg (by omega)] at hok
        rw [if_neg (by omega)] at hok
        simp only [Nat.sub_self, List.take_zero, List.drop_zero, List.append_nil] at hok
        simp only [Except.ok.injEq, Prod.mk.injEq] at hok
        obtain ⟨rfl, rfl⟩ := hok
        refine ⟨rfl, rfl, ?_, ?_, rfl⟩
        · show wireOf (cmd, rest.take n) ++ rest.drop n = _
          rw [wireOf]
          have hlen : (rest.take n).length = n := by
            rw [List.length_take, Nat.min_eq_left hle]
          rw [hlen]
          rw [show enc3 n = [b0, b1, b2] from enc3_dec3 b0 b1 b2 hb0 hb1 hb2,
            show enc3 cmd = [b3, b4, b5] from enc3_dec3 b3 b4 b5 hb3 hb4 hb5]
          simp [List.take_append_drop]
        · intro x hx
          have hxr : x ∈ rest := List.drop_subset _ _ hx
          exact hvalid x (by simp [hxr])
      · rw [if_neg hle] at hok
        exact absurd hok (by simp)
    · rw [if_neg h6] at hsl
      exact absurd hsl (by simp)

theorem wireAll_append (a c : List (Nat × List Nat)) :
    wireAll (a ++ c) = wireAll a ++ wireAll c := by
  simp [wireAll]

theorem wireAll_toList (r : Option (Nat × List Nat)) :
    wireAll r.toList = wireOpt r := by
  cases r <;> simp [wireAll, wireOpt]

/-- Iterating `process_new_buffer` from a no-pending-header state preserves
the stream-prefix invariant: emitted wire bytes plus the final assembled
payload and staging reproduce the bytes observed. -/
theorem runCalls_prefix_aux :
    ∀ (calls : List (List Nat)) (t : Nat) (b : BusyStatesExample) (inc : List Nat)
      (s2 : ProtocolBuffer Nat BusyStatesExample) (msgs : List (Nat × List Nat)),
      (∀ x ∈ inc ++ calls.flatten, x < 256) →
      runCalls ProtocolExample ⟨none, t, [], inc, b⟩ calls = .ok (s2, msgs) →
      s2.current_command = none ∧ s2.current_message = [] ∧
        wireAll msgs ++ s2.incoming_buffer_vec = inc ++ calls.flatten ∧
        (∀ x ∈ s2.incoming_buffer_vec, x < 256) ∧ s2.busy_state = b := by
  intro calls
  induction calls with
  | nil =>
    intro t b inc s2 msgs hvalid hok
    rw [runCalls] at hok
    simp only [Except.ok.injEq, Prod.mk.injEq] at hok
    obtain ⟨rfl, rfl⟩ := hok
    exact ⟨rfl, rfl, by simp [wireAll], by simpa using hvalid, rfl⟩
  | cons chunk rest ih =>
    intro t b inc s2 msgs hvalid hok
    rw [runCalls] at hok
    split at hok
    next e heq => exact absurd hok (by simp)
    next s1 r heq =>
      have hmem : ∀ x ∈ inc ++ chunk, x < 256 := by
        intro x hx
        apply hvalid
        simp only [List.flatten_cons, List.mem_append] at hx ⊢
        tauto
      obtain ⟨h1, h2, h3, h4, h5⟩ := step_preserves_prefix t b inc chunk s1 r hmem heq
      obtain ⟨cc, ct, cm, ci, cb⟩ := s1
      simp only at h1 h2 h3 h4 h5
      subst h1
      subst h2
      split at hok
      next e2 heq2 => exact absurd hok (by simp)
      next s2x ms heq2 =>
        simp only [Except.ok.injEq, Prod.mk.injEq] at hok
        obtain ⟨rfl, rfl⟩ := hok
        have hvalid2 : ∀ x ∈ ci ++ rest.flatten, x < 256 := by
          intro x hx
          rcases List.mem_append.mp hx with hxi | hxr
          · exact h4 x hxi
          · apply hvalid
            simp only [List.flatten_cons, List.mem_append]
            tauto
        obtain ⟨g1, g2, g3, g4, g5⟩ := ih ct cb ci s2x ms hvalid2 heq2
        refine ⟨g1, g2, ?_, g4, g5.trans h5⟩
        rw [wireAll_append, wireAll_toList, List.flatten_cons, List.append_assoc (wireOpt r),
          g3, ← List.append_assoc, h3, List.append_assoc]

/-- Entry `i` of the service-pass flags, for any in-range counter start:
the pass runs exactly when the counter cycle of length `check_count + 1`
returns to the comparison hit. -/
theorem serviceFlags_getD (k : Nat) :
    ∀ (n c i : Nat), c ≤ k → i < n →
      (serviceFlags k c n).getD i false = decide ((c + i) % (k + 1) = k) := by
  intro n
  induction n with
  | zero => intro c i hc hi; exact absurd hi (Nat.not_lt_zero i)
  | succ n ih =>
    intro c i hc hi
    rw [serviceFlags]
    by_cases hck : c = k
    · subst hck
      rw [if_pos rfl]
      cases i with
      | zero =>
        simp only [List.getD_cons_zero]
        rw [Nat.add_zero, Nat.mod_eq_of_lt (Nat.lt_succ_self c)]
        simp
      | succ i =>
        simp only [List.getD_cons_succ]
        rw [ih 0 i (Nat.zero_le c) (by omega)]
        congr 1
        rw [Nat.zero_add, show c + (i + 1) = i + (c + 1) from by omega, Nat.add_mod_right]
    · rw [if_neg hck]
      cases i with
      | zero =>
        simp only [List.getD_cons_zero]
        rw [Nat.add_zero, Nat.mod_eq_of_lt (by omega)]
        simp [hck]
      | succ i =>
        simp only [List.getD_cons_succ]
        rw [ih (c + 1) i (by omega) (by omega)]
        congr 1
        rw [show c + 1 + i = c + (i + 1) from by omega]

/-- Draining the busy-state update queue applies every update in order, so
the framer ends holding the last queued state. -/
theorem foldl_update_busy {Cmd Busy : Type} :
    ∀ (us : List Busy) (pb : ProtocolBuffer Cmd Busy) (u : Busy),
      ((u :: us).foldl ProtocolBuffer.update_busy_state pb).busy_state = us.getLastD u := by
  intro us
  induction us with
  | nil => intro pb u; rfl
  | cons v vs ih =>
    intro pb u
    rw [List.foldl_cons, List.foldl_cons]
    rw [show List.foldl ProtocolBuffer.update_busy_state
          (ProtocolBuffer.update_busy_state (ProtocolBuffer.update_busy_state pb u) v) vs
        = List.foldl ProtocolBuffer.update_busy_state
            (ProtocolBuffer.update_busy_state pb u) (v :: vs) from rfl]
    rw [ih (ProtocolBuffer.update_busy_state pb u) v, List.getLastD_cons]

theorem process_empty_pristine (t : Nat) (b : BusyStatesExample) :
    process_new_buffer ProtocolExample ⟨none, t, [], [], b⟩ []
      = .ok (⟨none, t, [], [], b⟩, none) := by
  simp [process_new_buffer, ProtocolExample]

/-- C1: the spec claims that any partitioning of a concatenation of
constructed messages, byte-by-byte included, feeds through the Frame Buffer
with no panic.  The code panics: delivering the wire message for command 1
with payload [97] one byte at a time makes the sixth call recognise a full
header whose declared payload length exceeds the empty staging remainder,
and `current_message.split_off(length)` is called past the end of the
vector.  The dead partial-payload branch of `process_new_buffer` shows the
accumulation was intended, so this is a slip in the code. -/
theorem byte_by_byte_feed_panics :
    ProtocolExample.construct_message 1 [97] = some [0, 0, 1, 0, 0, 1, 97] ∧
      feedStream ProtocolExample 1 (ProtocolBuffer.new ProtocolExample)
          [[0], [0], [1], [0], [0], [1], [97]]
        = .error FramerPanic.splitOffOutOfBounds :=
  ⟨rfl, rfl⟩

/-- C2 counterexample: the claim says queued busy-state updates are applied
before a busy-state query is answered within one service pass.  In the
code the query is answered first: with one queued update (to a working
state) and one queued query, the pass responds with the stale pre-pass
state even though the update was queued first and is indeed applied by the
end of the very same pass. -/
theorem query_answered_before_update_drain_cex :
    @servicePass Nat BusyStatesExample
        { shutdown_queue := []
          busy_state_query_queue := [()]
          busy_state_update_queue := [BusyStatesExample.working [171]]
          pb := ⟨none, 0, [], [], BusyStatesExample.waitingForRequest⟩
          query_responses := [] }
      = some
        { shutdown_queue := []
          busy_state_query_queue := []
          busy_state_update_queue := []
          pb := ⟨none, 0, [], [], BusyStatesExample.working [171]⟩
          query_responses := [BusyStatesExample.waitingForRequest] } ∧
      BusyStatesExample.waitingForRequest ≠ BusyStatesExample.working [171] :=
  ⟨rfl, by simp⟩

/-- C2 amended: within one control-plane service pass the worker answers
the busy-state query with the busy state held at entry to the pass, and
only afterwards drains the update queue, applying every queued update in
order; the last queued update is therefore visible to the query of the
following pass, not to the query of the same pass. -/
theorem service_pass_query_precedes_update_drain {Cmd Busy : Type}
    (pb : ProtocolBuffer Cmd Busy) (u : Busy) (us resp : List Busy) :
    servicePass
        { shutdown_queue := []
          busy_state_query_queue := [()]
          busy_state_update_queue := u :: us
          pb := pb
          query_responses := resp }
      = some
        { shutdown_queue := []
          busy_state_query_queue := []
          busy_state_update_queue := []
          pb := (u :: us).foldl ProtocolBuffer.update_busy_state pb
          query_responses := resp ++ [pb.get_busy_state] } ∧
      ((u :: us).foldl ProtocolBuffer.update_busy_state pb).busy_state = us.getLastD u ∧
      servicePass
          { shutdown_queue := []
            busy_state_query_queue := [()]
            busy_state_update_queue := []
            pb := (u :: us).foldl ProtocolBuffer.update_busy_state pb
            query_responses := resp ++ [pb.get_busy_state] }
        = some
          { shutdown_queue := []
            busy_state_query_queue := []
            busy_state_update_queue := []
            pb := (u :: us).foldl ProtocolBuffer.update_busy_state pb
            query_responses := (resp ++ [pb.get_busy_state]) ++ [us.getLastD u] } := by
  refine ⟨rfl, foldl_update_busy us pb u, ?_⟩
  have h := foldl_update_busy us pb u
  simp only [servicePass, ProtocolBuffer.get_busy_state, List.foldl_nil]
  rw [h]

/-- C3 counterexample: the claim says the worker services the control
channels once every `check_count` iterations, in particular on every
iteration when `check_count = 1`.  In the code the counter starts at zero
and a pass runs only when the counter reaches `check_count`, so with
`check_count = 1` the first two iterations run [skip, service], not
[service, service]. -/
theorem check_count_one_counterexample :
    serviceFlags 1 0 2 = [false, true] ∧ serviceFlags 1 0 2 ≠ [true, true] :=
  ⟨rfl, by decide⟩

/-- C3 amended: starting from counter zero, the worker runs a control-plane
service pass exactly on the iterations whose 0-indexed number is congruent
to `check_count` modulo `check_count + 1` — that is, once every
`check_count + 1` iterations, the first on iteration `check_count + 1`;
with `check_count = 1` it services every second iteration. -/
theorem service_every_check_count_plus_one (k n i : Nat) (h : i < n) :
    (serviceFlags k 0 n).getD i false = decide (i % (k + 1) = k) := by
  rw [serviceFlags_getD k n 0 i (Nat.zero_le k) h, Nat.zero_add]

theorem service_every_check_count_plus_one_witness :
    (1 : Nat) < 2 ∧ (serviceFlags 1 0 2).getD 1 false = decide (1 % (1 + 1) = 1) :=
  ⟨by decide, service_every_check_count_plus_one 1 2 1 (by decide)⟩

/-- C4: invariant I5 after every call — over any sequence of
`process_new_buffer` calls from a fresh framer that returns without
panicking, the wire bytes of the emitted messages (header reconstructed
from command and payload length), followed by the assembled payload,
followed by the staging bytes, equal exactly the concatenation of all bytes
observed.  Bytes are required to be octets. -/
theorem run_preserves_stream_prefix (calls : List (List Nat))
    (s : ProtocolBuffer Nat BusyStatesExample) (msgs : List (Nat × List Nat))
    (hvalid : ∀ x ∈ calls.flatten, x < 256)
    (hok : runCalls ProtocolExample (ProtocolBuffer.new ProtocolExample) calls
        = .ok (s, msgs)) :
    wireAll msgs ++ s.current_message ++ s.incoming_buffer_vec = calls.flatten := by
  have hok2 : runCalls ProtocolExample
      ⟨none, 0, [], [], BusyStatesExample.waitingForRequest⟩ calls = .ok (s, msgs) := hok
  have hv : ∀ x ∈ ([] : List Nat) ++ calls.flatten, x < 256 := by simpa using hvalid
  obtain ⟨h1, h2, h3, h4, h5⟩ :=
    runCalls_prefix_aux calls 0 BusyStatesExample.waitingForRequest [] s msgs hv hok2
  rw [h2]
  simpa using h3

theorem run_preserves_stream_prefix_witness :
    wireAll [(1, [97])] ++ [] ++ [] = [[0, 0, 1, 0, 0, 1, 97], []].flatten :=
  run_preserves_stream_prefix [[0, 0, 1, 0, 0, 1, 97], []]
    ⟨none, 0, [], [], BusyStatesExample.waitingForRequest⟩ [(1, [97])]
    (by decide) (by rfl)

/-- C5: construction and framing are inverse — for any command and payload
that `construct_message` accepts, feeding the complete wire message into a
fresh Frame Buffer emits exactly that one message, the drain call then
yields nothing, and the framer is back in the pristine state. -/
theorem construct_roundtrip_single_message (c : Nat) (p w : List Nat) (t : Nat)
    (b : BusyStatesExample)
    (hcw : ProtocolExample.construct_message c p = some w) :
    feedChunk ProtocolExample 1 ⟨none, t, [], [], b⟩ w
      = .ok (⟨none, 0, [], [], b⟩, [(c, p)], true) := by
  rw [feedChunk]
  simp only [process_whole_message c p w t b hcw]
  have hd : drainCalls ProtocolExample 1
      (⟨none, 0, [], [], b⟩ : ProtocolBuffer Nat BusyStatesExample)
      = .ok (⟨none, 0, [], [], b⟩, [], true) := by
    have h1 : (1 : Nat) = 0 + 1 := rfl
    rw [h1, drainCalls]
    simp only [process_empty_pristine]
  simp only [hd]

theorem construct_roundtrip_single_message_witness :
    feedChunk ProtocolExample 1
        ⟨none, 0, [], [], BusyStatesExample.waitingForRequest⟩ [0, 0, 1, 0, 0, 1, 97]
      = .ok (⟨none, 0, [], [], BusyStatesExample.waitingForRequest⟩, [(1, [97])], true) :=
  construct_roundtrip_single_message 1 [97] [0, 0, 1, 0, 0, 1, 97] 0
    BusyStatesExample.waitingForRequest (by rfl)

/-- C6: immediate-reply suppression — whenever the immediate-route
predicate fires for an inbound message given the current busy state and the
reply construction succeeds, the worker writes exactly the constructed
reply bytes on its socket handle, and the inbound message is never posted
as a deliverable message, so `get_message` never returns it. -/
theorem immediate_route_suppresses_delivery {Cmd Busy : Type}
    (P : Protocol Cmd Busy) (pb : ProtocolBuffer Cmd Busy)
    (c : Cmd) (p : List Nat) (c2 : Cmd) (p2 w : List Nat) (writeOk : Bool)
    (hroute : P.message_is_answered_via_immediate_route c p pb.get_busy_state
        = some (c2, p2))
    (hcons : P.construct_message c2 p2 = some w) :
    (dispatchMessage P pb c p writeOk).1 = [w] ∧
      deliveredMessages (dispatchMessage P pb c p writeOk).2 = [] := by
  rw [dispatchMessage]
  simp only [hroute, hcons]
  cases writeOk <;> simp [deliveredMessages]

theorem immediate_route_suppresses_delivery_witness :
    (dispatchMessage ProtocolExample
        ⟨none, 0, [], [], BusyStatesExample.working [171]⟩ 12 [] true).1
      = [[0, 0, 1, 0, 0, 12, 171]] ∧
      deliveredMessages (dispatchMessage ProtocolExample
        ⟨none, 0, [], [], BusyStatesExample.working [171]⟩ 12 [] true).2 = [] :=
  immediate_route_suppresses_delivery ProtocolExample
    ⟨none, 0, [], [], BusyStatesExample.working [171]⟩ 12 [] 12 [171]
    [0, 0, 1, 0, 0, 12, 171] true (by rfl) (by rfl)

/-- C7: read-error handling — a read error other than WouldBlock is posted
as a ReadError on the outbound channel and the worker keeps looping; the
worker stops only when the receiver was dropped so the report could not be
sent; a WouldBlock error produces no report and the loop continues. -/
theorem read_error_reporting :
    handleReadError Nat false true = ([Post.readError], true) ∧
      handleReadError Nat false false = ([], false) ∧
      handleReadError Nat true true = ([], true) ∧
      handleReadError Nat true false = ([], true) :=
  ⟨rfl, rfl, rfl, rfl⟩

/-- C8: header parse failure is fatal — with no pending header, when a full
header block is extracted from staging and `parse_header` rejects it, the
framer panics instead of returning a value or a recoverable error. -/
theorem parse_header_failure_panics {Cmd Busy : Type}
    (P : Protocol Cmd Busy) (s : ProtocolBuffer Cmd Busy)
    (chunk header message : List Nat) (e : Unit)
    (hcmd : s.current_command = none)
    (hslice : P.message_slice_to_header_array (s.incoming_buffer_vec ++ chunk)
        = some (header, message))
    (hparse : P.parse_header header = .error e) :
    process_new_buffer P s chunk = .error FramerPanic.parseHeaderError := by
  simp only [process_new_buffer, hcmd, hslice, hparse]

theorem parse_header_failure_panics_witness :
    process_new_buffer parseFailProtocol (ProtocolBuffer.new parseFailProtocol) []
      = .error FramerPanic.parseHeaderError :=
  parse_header_failure_panics parseFailProtocol (ProtocolBuffer.new parseFailProtocol)
    [] [] [] () (by rfl) (by rfl) (by rfl)

/-- C9: missing payload bytes panic — with no pending header, when a full
header block is recognised and parsed to a declared payload length larger
than the staging remainder, `process_new_buffer` panics at
`Vec.split_off` instead of buffering the partial payload; in particular a
header with a non-zero declared length arriving without any payload byte
panics. -/
theorem missing_payload_split_off_panics {Cmd Busy : Type}
    (P : Protocol Cmd Busy) (s : ProtocolBuffer Cmd Busy)
    (chunk header message : List Nat) (c : Cmd) (n : Nat)
    (hcmd : s.current_command = none)
    (hslice : P.message_slice_to_header_array (s.incoming_buffer_vec ++ chunk)
        = some (header, message))
    (hparse : P.parse_header header = .ok (c, n))
    (hshort : message.length < n) :
    process_new_buffer P s chunk = .error FramerPanic.splitOffOutOfBounds := by
  simp only [process_new_buffer, hcmd, hslice, hparse]
  rw [if_neg (by omega)]

theorem missing_payload_split_off_panics_witness :
    process_new_buffer ProtocolExample (ProtocolBuffer.new ProtocolExample)
        [0, 0, 1, 0, 0, 1]
      = .error FramerPanic.splitOffOutOfBounds :=
  missing_payload_split_off_panics ProtocolExample (ProtocolBuffer.new ProtocolExample)
    [0, 0, 1, 0, 0, 1] [0, 0, 1, 0, 0, 1] [] 1 1 (by rfl) (by rfl) (by rfl) (by decide)

/-- C10: drain-call no-op — with no pending header and empty staging, for
any capability whose header extraction returns nothing on inputs shorter
than the positive header length, feeding the empty slice returns nothing
and leaves the whole framer state untouched, and one further drain call
exits the drain loop. -/
theorem empty_feed_noop {Cmd Busy : Type}
    (P : Protocol Cmd Busy) (H : Nat) (s : ProtocolBuffer Cmd Busy)
    (hH : 0 < H)
    (hshort : ∀ bs : List Nat, bs.length < H → P.message_slice_to_header_array bs = none)
    (hcmd : s.current_command = none)
    (hinc : s.incoming_buffer_vec = []) :
    process_new_buffer P s [] = .ok (s, none) ∧
      drainCalls P 1 s = .ok (s, [], true) := by
  obtain ⟨cc, ct, cm, ci, cb⟩ := s
  simp only at hcmd hinc
  subst hcmd
  subst hinc
  have h0 : P.message_slice_to_header_array [] = none :=
    hshort [] (by simpa using hH)
  have hp : process_new_buffer P ⟨none, ct, cm, [], cb⟩ [] = .ok (⟨none, ct, cm, [], cb⟩, none) := by
    simp [process_new_buffer, h0]
  refine ⟨hp, ?_⟩
  have h1 : (1 : Nat) = 0 + 1 := rfl
  rw [h1, drainCalls]
  simp only [hp]

theorem empty_feed_noop_witness :
    process_new_buffer ProtocolExample (ProtocolBuffer.new ProtocolExample) []
        = .ok (ProtocolBuffer.new ProtocolExample, none) ∧
      drainCalls ProtocolExample 1 (ProtocolBuffer.new ProtocolExample)
        = .ok (ProtocolBuffer.new ProtocolExample, [], true) :=
  empty_feed_noop ProtocolExample 6 (ProtocolBuffer.new ProtocolExample)
    (by decide)
    (fun bs h => by simp only [ProtocolExample]; rw [if_neg (by omega)])
    (by rfl) (by rfl)
